import Mathlib

/-!
Verification of the `pets` repository (a lost/found/adoption pet site).

The data model and the handlers under `src/pets/common/views.py` are embedded
directly from the source.  The `meupet` models and views are not part of the
source excerpt (only their tests and callers are), so those operations are
modelled from the specification; each such definition carries a doc comment
starting with `Modelled from the spec:`.

The Django persistence layer is embedded as an explicit list of records passed
to every operation; a query-set is a plain `List`, and `order_by` is a stable
sort on the named field.
-/

namespace Pets

/-- A pet species/category (`meupet.models.Kind`): a unique identifier and a
display name stored in the `kind` field. -/
structure Kind where
  id : Nat
  kind : String
deriving DecidableEq, Repr

/-- An authenticated account (`users.models.OwnerProfile`): identifier,
username, the profile-confirmation flag and the optional social link. -/
structure OwnerProfile where
  id : Nat
  username : String
  is_information_confirmed : Bool
  facebook : Option String
deriving DecidableEq, Repr

/-- Modelled from the spec: the status enumeration of a pet record
(`Pet.MISSING`, `Pet.FOUND`, `Pet.FOR_ADOPTION`, `Pet.ADOPTED`); the `Pet`
model itself is not under `src/`. -/
inductive PetStatus where
  | MISSING
  | FOUND
  | FOR_ADOPTION
  | ADOPTED
deriving DecidableEq, Repr

/-- Modelled from the spec: the `Pet` model (`meupet.models.Pet`, not under
`src/`): name, description, profile image, owning user reference, kind
reference and status. -/
structure PetRecord where
  id : Nat
  name : String
  description : String
  profile_picture : String
  owner : Nat
  kind : Nat
  status : PetStatus
deriving DecidableEq, Repr

/-- Embedding of `common.views.get_kind_list`, which evaluates
`models.Kind.objects.all().order_by("kind")`.  The query-set is the list
`kinds`; ordering by the `kind` field is a stable ascending sort on the
display name. -/
def get_kind_list (kinds : List Kind) : List Kind :=
  List.insertionSort (fun a b => a.kind ≤ b.kind) kinds

/-- C4: `listKinds()` (that is, `get_kind_list`) returns all stored Kind
records — the result is a permutation of the store, hence empty exactly when
the store is empty and with no record dropped or added — sorted ascending by
the `kind` display name. -/
theorem get_kind_list_sorted_complete (kinds : List Kind) :
    (get_kind_list kinds).Perm kinds ∧
    List.Sorted (fun a b : Kind => a.kind ≤ b.kind) (get_kind_list kinds) := by
  constructor
  · exact List.perm_insertionSort _ kinds
  · have htot : IsTotal Kind (fun a b : Kind => a.kind ≤ b.kind) :=
      ⟨fun a b => le_total a.kind b.kind⟩
    have htrans : IsTrans Kind (fun a b : Kind => a.kind ≤ b.kind) :=
      ⟨fun _ _ _ hab hbc => le_trans hab hbc⟩
    exact List.sorted_insertionSort _ kinds

/-- Modelled from the spec: the registration form data bound from a POST to
`/pet/lost/` or `/pet/adoption/` (the form class is not under `src/`); a
missing field is `none`. -/
structure RegisterForm where
  name : Option String
  description : Option String
  kind : Option Nat
  profile_picture : Option String
deriving DecidableEq, Repr

/-- A value stored in a render-context mapping: a kind listing, a bound
registration form, or some other opaque value. -/
inductive CtxVal where
  | kindList (ks : List Kind)
  | form (f : RegisterForm)
  | val (n : Nat)
deriving DecidableEq, Repr

/-- A render-context mapping (a Python dict from keys to values). -/
def Context : Type := String → Option CtxVal

/-- Dictionary assignment, the statement context[key] = v, on a render
context. -/
def dictSet (m : Context) (k : String) (v : CtxVal) : Context :=
  fun key => if key = k then some v else m key

/-- Embedding of `common.views.MeuPetEspecieMixin.get_context_data`: takes
the base context
built by `super().get_context_data(**kwargs)` and assigns
the `kind_lost` and `kind_adoption` entries of the dict, each from its own call
to `get_kind_list()` over the kind store. -/
def get_context_data (kinds : List Kind) (context : Context) : Context :=
  let context1 := dictSet context "kind_lost" (CtxVal.kindList (get_kind_list kinds))
  let context2 := dictSet context1 "kind_adoption" (CtxVal.kindList (get_kind_list kinds))
  context2

/-- An HTTP response: either a rendered template with its extra context
entries, or a redirect. -/
inductive HttpResponse where
  | rendered (template : String) (extraContext : List (String × CtxVal))
  | redirected (url : String)
deriving DecidableEq, Repr

/-- The Django `render(request, template_name, context=None)` shortcut: an
omitted context renders with no extra context entries. -/
def render (request : Nat) (template : String)
    (context : Option (List (String × CtxVal))) : HttpResponse :=
  HttpResponse.rendered template (context.getD [])

/-- Embedding of `common.views.not_found`, which returns
`render(request, "staticpages/404.html")` with the context argument
omitted. -/
def not_found (request : Nat) : HttpResponse :=
  render request "staticpages/404.html" none

/-- C5: for every base render-context mapping, the enriched context binds both
`kind_lost` and `kind_adoption`, each to the kind listing returned by
`get_kind_list` over the store (the two bindings are separately fetched calls
over the same store, hence equal listings). -/
theorem get_context_data_binds_kind_keys (kinds : List Kind) (context : Context) :
    get_context_data kinds context "kind_lost"
        = some (CtxVal.kindList (get_kind_list kinds)) ∧
    get_context_data kinds context "kind_adoption"
        = some (CtxVal.kindList (get_kind_list kinds)) := by
  constructor <;> simp [get_context_data, dictSet]

/-- C10: the enrichment is a frame on every key other than `kind_lost` and
`kind_adoption` — those bindings of the base mapping are unchanged — and any
pre-existing `kind_lost` or `kind_adoption` binding of the base mapping is
overwritten with the freshly fetched listing. -/
theorem get_context_data_frame (kinds : List Kind) (context : Context)
    (key : String) (h1 : key ≠ "kind_lost") (h2 : key ≠ "kind_adoption") :
    get_context_data kinds context key = context key ∧
    get_context_data kinds context "kind_lost"
        = some (CtxVal.kindList (get_kind_list kinds)) ∧
    get_context_data kinds context "kind_adoption"
        = some (CtxVal.kindList (get_kind_list kinds)) := by
  refine ⟨?_, (get_context_data_binds_kind_keys kinds context).1,
    (get_context_data_binds_kind_keys kinds context).2⟩
  simp [get_context_data, dictSet, h1, h2]

/-- C10 witness: over a one-kind store and a base mapping that already binds
`kind_lost` to an unrelated value, the key `"view"` keeps its base binding
while both kind keys hold the fresh listing. -/
theorem get_context_data_frame_witness :
    get_context_data [Kind.mk 1 "Cat"]
        (fun _ => some (CtxVal.val 7)) "view" = some (CtxVal.val 7) ∧
    get_context_data [Kind.mk 1 "Cat"]
        (fun _ => some (CtxVal.val 7)) "kind_lost"
      = some (CtxVal.kindList (get_kind_list [Kind.mk 1 "Cat"])) ∧
    get_context_data [Kind.mk 1 "Cat"]
        (fun _ => some (CtxVal.val 7)) "kind_adoption"
      = some (CtxVal.kindList (get_kind_list [Kind.mk 1 "Cat"])) :=
  get_context_data_frame [Kind.mk 1 "Cat"] (fun _ => some (CtxVal.val 7))
    "view" (by decide) (by decide)

/-- Lookup of a pet record by identifier in the store (the ORM query
`Pet.objects.get(id=petId)` / URL pk resolution). -/
def findPet (pets : List PetRecord) (petId : Nat) : Option PetRecord :=
  pets.find? (fun p => p.id == petId)

/-- The detail-page URL `/pet/{id}/` of a pet record. -/
def petDetailUrl (petId : Nat) : String :=
  "/pet/" ++ toString petId ++ "/"

/-- Modelled from the spec: the editable fields of a pet record
(name, description, kind, profile image) as submitted to the edit view. -/
structure EditFields where
  name : String
  description : String
  kind : Nat
  profile_picture : String
deriving DecidableEq, Repr

/-- Modelled from the spec: applying the fields of an edit to a pet record —
updates name, description, kind and image; identifier, owner and status are
untouched. -/
def applyEdit (p : PetRecord) (fields : EditFields) : PetRecord :=
  { p with
    name := fields.name
    description := fields.description
    kind := fields.kind
    profile_picture := fields.profile_picture }

/-- Modelled from the spec: the edit operation of the pet views (not under
`src/`).  `edit(petId, requester, fields)` succeeds only when the requester is
the owner of the record; an attempt by a non-owner applies no change and,
like a successful edit, answers with a redirect to the detail page
`/pet/{id}/` with no error surfaced.  `none` when no record has the
identifier. -/
def edit (pets : List PetRecord) (requesterId petId : Nat)
    (fields : EditFields) : Option (List PetRecord × String) :=
  match findPet pets petId with
  | none => none
  | some p =>
    if requesterId == p.owner then
      some (pets.map (fun q => if q.id == petId then applyEdit q fields else q),
        petDetailUrl petId)
    else
      some (pets, petDetailUrl petId)

theorem findPet_map_applyEdit (pets : List PetRecord) (petId : Nat)
    (fields : EditFields) (p : PetRecord)
    (h : findPet pets petId = some p) :
    findPet (pets.map (fun q => if q.id == petId then applyEdit q fields else q))
        petId = some (applyEdit p fields) := by
  induction pets with
  | nil => simp [findPet] at h
  | cons a l ih =>
    by_cases ha : (a.id == petId) = true
    · have h1 : a = p := by
        simp only [findPet, List.find?, ha, cond_true, Option.some.injEq] at h
        exact h
      subst h1
      have hid : ((applyEdit a fields).id == petId) = true := ha
      simp only [findPet, List.map_cons, ha, if_true, List.find?, hid, cond_true]
    · have h2 : findPet l petId = some p := by
        simp only [findPet, List.find?, ha, cond_false] at h
        exact h
      simpa [findPet, List.find?, ha] using ih h2

/-- C1: for every stored pet record and every requester, `edit` answers with a
redirect to the detail page `/pet/{id}/` (never an error); when the requester
is not the owner the store is left entirely unchanged, and when the requester
is the owner the edit succeeds — the record now carries the submitted
fields. -/
theorem edit_owner_only (pets : List PetRecord) (requesterId petId : Nat)
    (fields : EditFields) (p : PetRecord)
    (h : findPet pets petId = some p) :
    ∃ pets2, edit pets requesterId petId fields
        = some (pets2, petDetailUrl petId) ∧
      (requesterId ≠ p.owner → pets2 = pets) ∧
      (requesterId = p.owner →
        findPet pets2 petId = some (applyEdit p fields)) := by
  unfold edit
  rw [h]
  by_cases hown : requesterId = p.owner
  · refine ⟨pets.map (fun q => if q.id == petId then applyEdit q fields else q),
      ?_, ?_, ?_⟩
    · simp [hown]
    · intro hc; exact absurd hown hc
    · intro _; exact findPet_map_applyEdit pets petId fields p h
  · refine ⟨pets, ?_, fun _ => rfl, ?_⟩
    · simp [hown]
    · intro hc; exact absurd hc hown

/-- C1 witness: a one-record store owned by user 1; a request by user 2 (not
the owner) is settled through the theorem at that concrete input. -/
theorem edit_owner_only_witness :
    ∃ pets2,
      edit [PetRecord.mk 1 "Testing Pet" "Bla" "test.png" 1 1 PetStatus.MISSING]
          2 1 (EditFields.mk "Testing Fuzzy Boots" "My lovely cat" 1 "test.png")
        = some (pets2, petDetailUrl 1) ∧
      ((2 : Nat) ≠ 1 → pets2
        = [PetRecord.mk 1 "Testing Pet" "Bla" "test.png" 1 1 PetStatus.MISSING]) ∧
      ((2 : Nat) = 1 → findPet pets2 1
        = some (applyEdit
            (PetRecord.mk 1 "Testing Pet" "Bla" "test.png" 1 1 PetStatus.MISSING)
            (EditFields.mk "Testing Fuzzy Boots" "My lovely cat" 1 "test.png"))) :=
  edit_owner_only
    [PetRecord.mk 1 "Testing Pet" "Bla" "test.png" 1 1 PetStatus.MISSING]
    2 1 (EditFields.mk "Testing Fuzzy Boots" "My lovely cat" 1 "test.png")
    (PetRecord.mk 1 "Testing Pet" "Bla" "test.png" 1 1 PetStatus.MISSING)
    (by decide)

/-- Modelled from the spec: the manager query `Pet.objects.get_lost_or_found
(kindId)` (the `Pet` model is not under `src/`): all pet records of the kind
whose status is MISSING or FOUND, in store order. -/
def get_lost_or_found (pets : List PetRecord) (kindId : Nat) : List PetRecord :=
  pets.filter (fun p =>
    p.kind == kindId &&
      (p.status == PetStatus.MISSING || p.status == PetStatus.FOUND))

/-- Modelled from the spec: the manager query
`Pet.objects.get_for_adoption_adopted(kindId)` (the `Pet` model is not under
`src/`): all pet records of the kind whose status is FOR_ADOPTION or ADOPTED,
in store order. -/
def get_for_adoption_adopted (pets : List PetRecord) (kindId : Nat) :
    List PetRecord :=
  pets.filter (fun p =>
    p.kind == kindId &&
      (p.status == PetStatus.FOR_ADOPTION || p.status == PetStatus.ADOPTED))

/-- C2: a pet record is in `get_lost_or_found pets kindId` exactly when it is
stored, its kind is `kindId`, and its status is MISSING or FOUND; in
particular no FOR_ADOPTION or ADOPTED record is returned. -/
theorem get_lost_or_found_spec (pets : List PetRecord) (kindId : Nat)
    (p : PetRecord) :
    p ∈ get_lost_or_found pets kindId ↔
      p ∈ pets ∧ p.kind = kindId ∧
        (p.status = PetStatus.MISSING ∨ p.status = PetStatus.FOUND) := by
  simp [get_lost_or_found, List.mem_filter, and_assoc]

/-- C3: a pet record is in `get_for_adoption_adopted pets kindId` exactly when
it is stored, its kind is `kindId`, and its status is FOR_ADOPTION or
ADOPTED. -/
theorem get_for_adoption_adopted_spec (pets : List PetRecord) (kindId : Nat)
    (p : PetRecord) :
    p ∈ get_for_adoption_adopted pets kindId ↔
      p ∈ pets ∧ p.kind = kindId ∧
        (p.status = PetStatus.FOR_ADOPTION ∨ p.status = PetStatus.ADOPTED) := by
  simp [get_for_adoption_adopted, List.mem_filter, and_assoc]

/-- Modelled from the spec: the two registration paths `/pet/lost/` and
`/pet/adoption/` served by the registration views (not under `src/`). -/
inductive RegisterPath where
  | lost
  | adoption
deriving DecidableEq, Repr

/-- Modelled from the spec: the status a registration path gives a newly
created record — MISSING for the lost path, FOR_ADOPTION for the adoption
path. -/
def statusForPath : RegisterPath → PetStatus
  | RegisterPath.lost => PetStatus.MISSING
  | RegisterPath.adoption => PetStatus.FOR_ADOPTION

/-- Modelled from the spec: `create(name, description, image, owner, kind,
status=MISSING)` of the pet store (not under `src/`); `none` for the status
argument is the omitted default, which is MISSING. -/
def create (id : Nat) (name description image : String)
    (ownerId kindId : Nat) (status : Option PetStatus) : PetRecord :=
  { id := id
    name := name
    description := description
    profile_picture := image
    owner := ownerId
    kind := kindId
    status := status.getD PetStatus.MISSING }

/-- Modelled from the spec: the GET handler of the registration views (not
under `src/`): an authenticated but unconfirmed user is redirected to
`/user/profile/edit/`; a confirmed user gets the registration form page
`meupet/register_pet.html` rendered. -/
def registrationGet (path : RegisterPath) (user : OwnerProfile) : HttpResponse :=
  if user.is_information_confirmed then
    HttpResponse.rendered "meupet/register_pet.html"
      [("form", CtxVal.form (RegisterForm.mk none none none none))]
  else
    HttpResponse.redirected "/user/profile/edit/"

/-- Whether a submitted registration form validates: every required field
(name, description, kind, image) is present. -/
def form_is_valid (f : RegisterForm) : Bool :=
  f.name.isSome && f.description.isSome && f.kind.isSome &&
    f.profile_picture.isSome

/-- Modelled from the spec: the POST handler of the registration views (not
under `src/`): a valid form persists a new pet record with the status of the
path
and redirects to its detail page; an invalid or incomplete form re-renders
the same form page with the submitted values bound, persisting nothing. -/
def registrationPost (path : RegisterPath) (pets : List PetRecord)
    (nextId : Nat) (user : OwnerProfile) (f : RegisterForm) :
    List PetRecord × HttpResponse :=
  match f.name, f.description, f.kind, f.profile_picture with
  | some name, some description, some kindId, some image =>
    (pets ++ [create nextId name description image user.id kindId
        (some (statusForPath path))],
      HttpResponse.redirected (petDetailUrl nextId))
  | _, _, _, _ =>
    (pets, HttpResponse.rendered "meupet/register_pet.html"
      [("form", CtxVal.form f)])

/-- C6: for every registration path and authenticated user, an unconfirmed
user is answered with a redirect to `/user/profile/edit/`, and a GET by a
confirmed user renders the registration form page. -/
theorem registrationGet_confirmed_gate (path : RegisterPath)
    (user : OwnerProfile) :
    (user.is_information_confirmed = false →
      registrationGet path user = HttpResponse.redirected "/user/profile/edit/") ∧
    (user.is_information_confirmed = true →
      ∃ ctx, registrationGet path user
        = HttpResponse.rendered "meupet/register_pet.html" ctx) := by
  constructor
  · intro hfalse
    simp [registrationGet, hfalse]
  · intro htrue
    exact ⟨[("form", CtxVal.form (RegisterForm.mk none none none none))],
      by simp [registrationGet, htrue]⟩

/-- C6 witness: the admin user before and after confirming the profile, on the
lost path, settled through the theorem at those concrete inputs. -/
theorem registrationGet_confirmed_gate_witness :
    ((OwnerProfile.mk 1 "admin" false none).is_information_confirmed = false →
      registrationGet RegisterPath.lost (OwnerProfile.mk 1 "admin" false none)
        = HttpResponse.redirected "/user/profile/edit/") ∧
    ((OwnerProfile.mk 1 "admin" false none).is_information_confirmed = true →
      ∃ ctx, registrationGet RegisterPath.lost (OwnerProfile.mk 1 "admin" false none)
        = HttpResponse.rendered "meupet/register_pet.html" ctx) :=
  registrationGet_confirmed_gate RegisterPath.lost
    (OwnerProfile.mk 1 "admin" false none)

/-- C7: a registration submission whose form does not validate (a required
field missing) re-renders the same registration form page with every
submitted value preserved in the bound form, and persists no pet record —
the store is returned unchanged. -/
theorem registrationPost_invalid_preserves (path : RegisterPath)
    (pets : List PetRecord) (nextId : Nat) (user : OwnerProfile)
    (f : RegisterForm) (h : form_is_valid f = false) :
    registrationPost path pets nextId user f
      = (pets, HttpResponse.rendered "meupet/register_pet.html"
          [("form", CtxVal.form f)]) := by
  unfold registrationPost
  cases hn : f.name with
  | none => cases f.description <;> cases f.kind <;> cases f.profile_picture <;> rfl
  | some name =>
    cases hd : f.description with
    | none => cases f.kind <;> cases f.profile_picture <;> rfl
    | some description =>
      cases hk : f.kind with
      | none => cases f.profile_picture <;> rfl
      | some kindId =>
        cases hp : f.profile_picture with
        | none => rfl
        | some image =>
          exfalso
          simp [form_is_valid, hn, hd, hk, hp] at h

/-- C7 witness: the submission of only a description to `/pet/lost/` as in
the test suite,
settled through the theorem at that concrete input over an empty store. -/
theorem registrationPost_invalid_preserves_witness :
    form_is_valid (RegisterForm.mk none (some "Test Description") none none)
        = false ∧
    registrationPost RegisterPath.lost [] 1 (OwnerProfile.mk 1 "admin" false none)
        (RegisterForm.mk none (some "Test Description") none none)
      = ([], HttpResponse.rendered "meupet/register_pet.html"
          [("form", CtxVal.form
              (RegisterForm.mk none (some "Test Description") none none))]) :=
  ⟨by decide,
    registrationPost_invalid_preserves RegisterPath.lost [] 1
      (OwnerProfile.mk 1 "admin" false none)
      (RegisterForm.mk none (some "Test Description") none none) (by decide)⟩

/-- C8: every record produced by `create` carries a status that is one of the
four enumerated values; `create` with the status argument omitted yields
status MISSING; and `applyEdit` never changes the status of a record — so
every
record reachable through create and edit keeps a status among the four. -/
theorem create_edit_status_invariant :
    (∀ id name description image ownerId kindId status,
      (create id name description image ownerId kindId status).status
          = PetStatus.MISSING ∨
        (create id name description image ownerId kindId status).status
          = PetStatus.FOUND ∨
        (create id name description image ownerId kindId status).status
          = PetStatus.FOR_ADOPTION ∨
        (create id name description image ownerId kindId status).status
          = PetStatus.ADOPTED) ∧
    (∀ id name description image ownerId kindId,
      (create id name description image ownerId kindId none).status
        = PetStatus.MISSING) ∧
    (∀ p fields, (applyEdit p fields).status = p.status) := by
  refine ⟨?_, ?_, ?_⟩
  · intro _ _ _ _ _ _ status
    rcases status with _ | s
    · exact Or.inl rfl
    · cases s <;> simp [create]
  · intro _ _ _ _ _ _
    rfl
  · intro _ _
    rfl

/-- C9: the not-found handler renders the static `staticpages/404.html`
template with no extra context entries, for every request. -/
theorem not_found_renders_static (request : Nat) :
    not_found request = HttpResponse.rendered "staticpages/404.html" [] := by
  simp [not_found, render]

end Pets
